import Mathlib

/-!
Verification development for the playground sandbox-orchestration engine
(`packages/core`): the template diff engine (`TemplateManager`), the
template cache (`TemplateCache`), the snapshot persistence protocol
(`PersistenceManager`), and the orchestration methods of
`PlaygroundEngine` (`initialize`, `switchTemplate`, `installDependencies`,
`saveSnapshot`, `loadSnapshot`).

JavaScript `Map<string, T>` values are embedded as insertion-ordered
association lists `List (String × T)`; `Map.get`/`Map.set`/`Map.delete`
keep the JS semantics (first match; in-place update preserving position;
removal).  `JSON.stringify` of a string-valued record is injective and is
inverted by `JSON.parse`, so hash comparisons of stringified dependency
records are embedded as structural equality of the ordered association
lists, and the string stored in `localStorage` is represented by its
parsed JSON value.
-/

namespace Playground

/-! ### JS `Map` primitives over association lists -/

/-- JS `Map.get`: value of the first (unique, in a real `Map`) entry with
the given key, or `none`. -/
def jsGet {α : Type} : List (String × α) → String → Option α
  | [], _ => none
  | kv :: rest, k => if kv.1 = k then some kv.2 else jsGet rest k

/-- JS `Map.set`: update the entry in place if the key is present
(keeping its position), otherwise append a fresh entry. -/
def jsSet {α : Type} : List (String × α) → String → α → List (String × α)
  | [], k, v => [(k, v)]
  | kv :: rest, k, v => if kv.1 = k then (k, v) :: rest else kv :: jsSet rest k v

/-- JS `Map.delete`: remove the (first) entry with the given key. -/
def jsDelete {α : Type} : List (String × α) → String → List (String × α)
  | [], _ => []
  | kv :: rest, k => if kv.1 = k then rest else kv :: jsDelete rest k

theorem jsGet_eq_none_iff {α : Type} (m : List (String × α)) (k : String) :
    jsGet m k = none ↔ k ∉ m.map Prod.fst := by
  induction m with
  | nil => simp [jsGet]
  | cons kv rest ih =>
    obtain ⟨a, b⟩ := kv
    show (if a = k then some b else jsGet rest k) = none ↔
      k ∉ List.map Prod.fst ((a, b) :: rest)
    by_cases hk : a = k
    · subst hk
      rw [if_pos rfl]
      simp
    · rw [if_neg hk, List.map_cons, List.mem_cons, ih]
      constructor
      · intro hn h2
        rcases h2 with h2 | h2
        · exact hk h2.symm
        · exact hn h2
      · intro hn h2
        exact hn (Or.inr h2)

theorem mem_of_jsGet_eq_some {α : Type} {k : String} {v : α} :
    ∀ {m : List (String × α)}, jsGet m k = some v → (k, v) ∈ m := by
  intro m
  induction m with
  | nil => intro h; simp [jsGet] at h
  | cons kv rest ih =>
    obtain ⟨a, b⟩ := kv
    intro h
    have h' : (if a = k then some b else jsGet rest k) = some v := h
    by_cases hk : a = k
    · subst hk
      rw [if_pos rfl] at h'
      injection h' with h2
      subst h2
      exact List.mem_cons_self _ _
    · rw [if_neg hk] at h'
      exact List.mem_cons_of_mem _ (ih h')

theorem jsGet_isSome_iff {α : Type} (m : List (String × α)) (k : String) :
    (jsGet m k).isSome = true ↔ k ∈ m.map Prod.fst := by
  cases ho : jsGet m k with
  | none =>
    simp only [Option.isSome_none, Bool.false_eq_true, false_iff]
    exact (jsGet_eq_none_iff m k).mp ho
  | some v =>
    simp only [Option.isSome_some, true_iff]
    exact List.mem_map.mpr ⟨(k, v), mem_of_jsGet_eq_some ho, rfl⟩

theorem jsGet_eq_some_of_mem {α : Type} {k : String} {v : α} :
    ∀ {m : List (String × α)}, (m.map Prod.fst).Nodup → (k, v) ∈ m →
      jsGet m k = some v := by
  intro m
  induction m with
  | nil => intro _ h; cases h
  | cons kv rest ih =>
    intro hnd hmem
    obtain ⟨a, b⟩ := kv
    have hnd' : (a :: rest.map Prod.fst).Nodup := hnd
    rcases List.mem_cons.mp hmem with heq | htail
    · injection heq with h1 h2
      subst h1
      subst h2
      show (if k = k then some v else jsGet rest k) = some v
      rw [if_pos rfl]
    · have hk : ¬a = k := by
        intro hkk
        subst hkk
        exact (List.nodup_cons.mp hnd').1 (List.mem_map.mpr ⟨(a, v), htail, rfl⟩)
      show (if a = k then some b else jsGet rest k) = some v
      rw [if_neg hk]
      exact ih (List.nodup_cons.mp hnd').2 htail

theorem jsGet_eq_some_iff_of_nodup {α : Type} {m : List (String × α)}
    (hnd : (m.map Prod.fst).Nodup) (k : String) (v : α) :
    jsGet m k = some v ↔ (k, v) ∈ m :=
  ⟨mem_of_jsGet_eq_some, jsGet_eq_some_of_mem hnd⟩

theorem exists_val_iff_mem_keys {α : Type} (m : List (String × α)) (k : String) :
    (∃ v, (k, v) ∈ m) ↔ k ∈ m.map Prod.fst := by
  constructor
  · rintro ⟨v, hv⟩
    exact List.mem_map.mpr ⟨(k, v), hv, rfl⟩
  · intro h
    obtain ⟨⟨a, b⟩, hmem, hfst⟩ := List.mem_map.mp h
    subst hfst
    exact ⟨b, hmem⟩

/-! ### Template diff engine (`TemplateManager.computeDiff`)

A flattened file tree (`flattenFileTree`'s output, and
`TemplateManager.currentFiles`) is a map from absolute path to content. -/

/-- A flattened file tree: insertion-ordered map from path to content. -/
abbrev FileMap := List (String × String)

/-- Path lookup in a flattened file map (JS `Map.get`). -/
def FileMap.get (m : FileMap) (p : String) : Option String := jsGet m p

/-- Key list of a flattened file map. -/
def FileMap.keys (m : FileMap) : List String := m.map Prod.fst

/-- The result record of `TemplateManager.computeDiff`. -/
structure FileDiff where
  added : List String
  removed : List String
  modified : List String
deriving Repr, DecidableEq

/-- JS truthiness test applied by `computeDiff` to
`this.currentFiles.get(path)`: `!current` is `true` when the path is
absent (`undefined`) and also when its content is the empty string. -/
def falsyContent : Option String → Bool
  | none => true
  | some c => c = ""

/-- `TemplateManager.computeDiff`, which walks the target map once pushing
into `added` (current entry falsy) or `modified` (current entry truthy and
different), then walks the current map pushing paths missing from the
target into `removed`.  The two loop passes are rendered as
order-preserving filters. -/
def computeDiff (current target : FileMap) : FileDiff where
  added := (target.filter (fun kv => falsyContent (FileMap.get current kv.1))).map Prod.fst
  removed := (current.map Prod.fst).filter (fun p => !(FileMap.get target p).isSome)
  modified := (target.filter (fun kv =>
      match FileMap.get current kv.1 with
      | some c => (c != "") && (c != kv.2)
      | none => false)).map Prod.fst

/-- The residual class of `computeDiff`'s case split over the target map:
paths whose current entry is truthy (present with nonempty content) and
equal to the target content, i.e. the paths left untouched by a switch. -/
def unchangedPaths (current target : FileMap) : List String :=
  (target.filter (fun kv =>
      match FileMap.get current kv.1 with
      | some c => (c != "") && (c == kv.2)
      | none => false)).map Prod.fst

theorem mem_map_fst_filter {f : String × String → Bool} {l : FileMap} {p : String} :
    p ∈ (l.filter f).map Prod.fst ↔ ∃ v, (p, v) ∈ l ∧ f (p, v) = true := by
  constructor
  · intro h
    obtain ⟨⟨a, b⟩, hkv, hfst⟩ := List.mem_map.mp h
    obtain ⟨hmem, hf⟩ := List.mem_filter.mp hkv
    subst hfst
    exact ⟨b, hmem, hf⟩
  · rintro ⟨v, hmem, hf⟩
    exact List.mem_map.mpr ⟨(p, v), List.mem_filter.mpr ⟨hmem, hf⟩, rfl⟩

theorem falsyContent_eq_true_iff (o : Option String) :
    falsyContent o = true ↔ o = none ∨ o = some "" := by
  cases o with
  | none => simp [falsyContent]
  | some c => simp [falsyContent, eq_comm]

/-- Membership in `computeDiff`'s `added` list. -/
theorem mem_added_iff (current target : FileMap) (p : String) :
    p ∈ (computeDiff current target).added ↔
      (FileMap.get target p).isSome = true ∧
        (FileMap.get current p = none ∨ FileMap.get current p = some "") := by
  rw [computeDiff]
  constructor
  · intro h
    obtain ⟨v, hmem, hf⟩ := mem_map_fst_filter.mp h
    refine ⟨?_, (falsyContent_eq_true_iff _).mp hf⟩
    rw [FileMap.get, jsGet_isSome_iff]
    exact (exists_val_iff_mem_keys target p).mp ⟨v, hmem⟩
  · rintro ⟨hsome, hfal⟩
    obtain ⟨v, hv⟩ := Option.isSome_iff_exists.mp hsome
    exact mem_map_fst_filter.mpr
      ⟨v, mem_of_jsGet_eq_some hv, (falsyContent_eq_true_iff _).mpr hfal⟩

/-- Membership in `computeDiff`'s `removed` list. -/
theorem mem_removed_iff (current target : FileMap) (p : String) :
    p ∈ (computeDiff current target).removed ↔
      p ∈ FileMap.keys current ∧ FileMap.get target p = none := by
  rw [computeDiff]
  simp only [List.mem_filter, Bool.not_eq_true', Option.not_isSome,
    Option.isNone_iff_eq_none, FileMap.keys]

/-- Membership in `computeDiff`'s `modified` list, assuming the target map
has no duplicate paths (true of every real `Map`). -/
theorem mem_modified_iff (current target : FileMap)
    (htgt : (FileMap.keys target).Nodup) (p : String) :
    p ∈ (computeDiff current target).modified ↔
      ∃ c v, FileMap.get current p = some c ∧ FileMap.get target p = some v ∧
        c ≠ "" ∧ c ≠ v := by
  rw [computeDiff]
  constructor
  · intro h
    obtain ⟨v, hmem, hf⟩ := mem_map_fst_filter.mp h
    rcases hc : FileMap.get current p with _ | c
    · rw [hc] at hf
      cases hf
    · rw [hc] at hf
      simp only [Bool.and_eq_true, bne_iff_ne, ne_eq] at hf
      exact ⟨c, v, rfl, (jsGet_eq_some_iff_of_nodup htgt p v).mpr hmem, hf.1, hf.2⟩
  · rintro ⟨c, v, hc, hv, hne, hnev⟩
    refine mem_map_fst_filter.mpr ⟨v, (jsGet_eq_some_iff_of_nodup htgt p v).mp hv, ?_⟩
    rw [hc]
    simp [hne, hnev]

/-- Membership in the residual `unchangedPaths` class, assuming the target
map has no duplicate paths. -/
theorem mem_unchanged_iff (current target : FileMap)
    (htgt : (FileMap.keys target).Nodup) (p : String) :
    p ∈ unchangedPaths current target ↔
      ∃ c, FileMap.get current p = some c ∧ FileMap.get target p = some c ∧
        c ≠ "" := by
  rw [unchangedPaths]
  constructor
  · intro h
    obtain ⟨v, hmem, hf⟩ := mem_map_fst_filter.mp h
    rcases hc : FileMap.get current p with _ | c
    · rw [hc] at hf
      cases hf
    · rw [hc] at hf
      simp only [Bool.and_eq_true, bne_iff_ne, ne_eq, beq_iff_eq] at hf
      obtain ⟨hne, hev⟩ := hf
      subst hev
      exact ⟨c, rfl, (jsGet_eq_some_iff_of_nodup htgt p c).mpr hmem, hne⟩
  · rintro ⟨c, hc, hv, hne⟩
    refine mem_map_fst_filter.mpr ⟨c, (jsGet_eq_some_iff_of_nodup htgt p c).mp hv, ?_⟩
    rw [hc]
    simp [hne]

theorem FileMap.mem_keys_iff_isSome (m : FileMap) (p : String) :
    p ∈ FileMap.keys m ↔ (FileMap.get m p).isSome = true :=
  (jsGet_isSome_iff m p).symm

/-! ### Claim C3 -/

/-- C3, counterexample: with `current = {"/a" ↦ ""}` and
`target = {"/a" ↦ "x"}` the path `/a` is present in `current` (so the
claim requires it to be classified `modified`), yet `computeDiff`
classifies it as `added`, because the source tests the current content
with JS truthiness (`if (!current)`) and the empty string is falsy. -/
theorem computeDiff_added_despite_presence :
    "/a" ∈ (computeDiff [("/a", "")] [("/a", "x")]).added ∧
      FileMap.get [("/a", "")] "/a" = some "" ∧
      "/a" ∉ (computeDiff [("/a", "")] [("/a", "x")]).modified := by
  decide

/-- C3 (amended): for every pair of flattened file maps and every path,
`computeDiff` classifies a target path as `added` exactly when it is
absent from `current` **or present with empty-string content** (JS
truthiness of `Map.get`), as `modified` exactly when it is present in both
maps with nonempty current content differing from the target content, and
a current path as `removed` exactly when it is absent from `target`. -/
theorem computeDiff_classification (current target : FileMap)
    (htgt : (FileMap.keys target).Nodup) (p : String) :
    (p ∈ (computeDiff current target).added ↔
       (FileMap.get target p).isSome = true ∧
         (FileMap.get current p = none ∨ FileMap.get current p = some "")) ∧
    (p ∈ (computeDiff current target).modified ↔
       ∃ c v, FileMap.get current p = some c ∧ FileMap.get target p = some v ∧
         c ≠ "" ∧ c ≠ v) ∧
    (p ∈ (computeDiff current target).removed ↔
       (FileMap.get current p).isSome = true ∧ FileMap.get target p = none) := by
  refine ⟨mem_added_iff current target p, mem_modified_iff current target htgt p, ?_⟩
  rw [mem_removed_iff]
  constructor
  · rintro ⟨h1, h2⟩
    exact ⟨(FileMap.mem_keys_iff_isSome current p).mp h1, h2⟩
  · rintro ⟨h1, h2⟩
    exact ⟨(FileMap.mem_keys_iff_isSome current p).mpr h1, h2⟩

/-- C3, witness: the amended classification evaluated on a concrete pair
of maps where `/a` is modified. -/
theorem computeDiff_classification_witness :
    "/a" ∈ (computeDiff [("/a", "1")] [("/a", "2")]).modified :=
  (computeDiff_classification [("/a", "1")] [("/a", "2")] (by decide) "/a").2.1.mpr
    ⟨"1", "2", by decide, by decide, by decide, by decide⟩

/-! ### Claim C2 -/

/-- C2, counterexample: with `current` and `target` both equal to
`{"/a" ↦ ""}` no path differs between the two maps, so the claimed
partition forces all three lists to be empty; `computeDiff` nevertheless
returns `added = ["/a"]` (empty-string content is falsy in JS), so `added`
overlaps the unchanged class and the partition fails. -/
theorem computeDiff_not_a_partition :
    (computeDiff [("/a", "")] [("/a", "")]).added = ["/a"] ∧
      (computeDiff [("/a", "")] [("/a", "")]).removed = [] ∧
      (computeDiff [("/a", "")] [("/a", "")]).modified = [] ∧
      FileMap.get [("/a", "")] "/a" = FileMap.get [("/a", "")] "/a" := by
  decide

/-- C2 (amended): `added`, `removed` and `modified` are pairwise disjoint,
`added` and `modified` contain only target paths and `removed` only
current paths, the three lists together with the code's unchanged class
(present in both maps with equal **nonempty** content) partition the union
of the key sets, and every path that differs between the two maps appears
in one of the three lists — but a path present in both maps with equal
empty-string content also lands in `added`, so the unchanged class must
exclude it. -/
theorem computeDiff_partition (current target : FileMap)
    (htgt : (FileMap.keys target).Nodup) :
    ((computeDiff current target).added.Disjoint (computeDiff current target).modified ∧
       (computeDiff current target).added.Disjoint (computeDiff current target).removed ∧
       (computeDiff current target).modified.Disjoint (computeDiff current target).removed) ∧
    ((∀ p ∈ (computeDiff current target).added, p ∈ FileMap.keys target) ∧
       (∀ p ∈ (computeDiff current target).modified, p ∈ FileMap.keys target) ∧
       (∀ p ∈ (computeDiff current target).removed, p ∈ FileMap.keys current)) ∧
    ((computeDiff current target).added.Disjoint (unchangedPaths current target) ∧
       (computeDiff current target).modified.Disjoint (unchangedPaths current target) ∧
       (computeDiff current target).removed.Disjoint (unchangedPaths current target)) ∧
    (∀ p, (p ∈ FileMap.keys current ∨ p ∈ FileMap.keys target) ↔
       (p ∈ (computeDiff current target).added ∨
         p ∈ (computeDiff current target).removed ∨
         p ∈ (computeDiff current target).modified ∨
         p ∈ unchangedPaths current target)) ∧
    (∀ p, FileMap.get current p ≠ FileMap.get target p →
       (p ∈ (computeDiff current target).added ∨
         p ∈ (computeDiff current target).removed ∨
         p ∈ (computeDiff current target).modified)) := by
  have hadd := mem_added_iff current target
  have hmod := mem_modified_iff current target htgt
  have hrem := mem_removed_iff current target
  have hunch := mem_unchanged_iff current target htgt
  refine ⟨⟨?_, ?_, ?_⟩, ⟨?_, ?_, ?_⟩, ⟨?_, ?_, ?_⟩, ?_, ?_⟩
  · intro p h1 h2
    obtain ⟨_, hfal⟩ := (hadd p).mp h1
    obtain ⟨c, v, hc, _, hne, _⟩ := (hmod p).mp h2
    rcases hfal with hfal | hfal
    · rw [hfal] at hc
      cases hc
    · rw [hfal] at hc
      injection hc with hc
      exact hne hc.symm
  · intro p h1 h2
    obtain ⟨hsome, _⟩ := (hadd p).mp h1
    obtain ⟨_, hnone⟩ := (hrem p).mp h2
    rw [hnone] at hsome
    cases hsome
  · intro p h1 h2
    obtain ⟨_, v, _, hv, _, _⟩ := (hmod p).mp h1
    obtain ⟨_, hnone⟩ := (hrem p).mp h2
    rw [hnone] at hv
    cases hv
  · intro p h1
    exact (FileMap.mem_keys_iff_isSome target p).mpr ((hadd p).mp h1).1
  · intro p h1
    obtain ⟨_, v, _, hv, _, _⟩ := (hmod p).mp h1
    exact (FileMap.mem_keys_iff_isSome target p).mpr (by rw [hv]; rfl)
  · intro p h1
    exact ((hrem p).mp h1).1
  · intro p h1 h2
    obtain ⟨_, hfal⟩ := (hadd p).mp h1
    obtain ⟨c, hc, _, hne⟩ := (hunch p).mp h2
    rcases hfal with hfal | hfal
    · rw [hfal] at hc
      cases hc
    · rw [hfal] at hc
      injection hc with hc
      exact hne hc.symm
  · intro p h1 h2
    obtain ⟨c, v, hc, hv, _, hnev⟩ := (hmod p).mp h1
    obtain ⟨c2, hc2, hv2, _⟩ := (hunch p).mp h2
    rw [hc] at hc2
    injection hc2 with hc2
    rw [hv] at hv2
    injection hv2 with hv2
    exact hnev (hc2 ▸ hv2.symm)
  · intro p h1 h2
    obtain ⟨_, hnone⟩ := (hrem p).mp h1
    obtain ⟨c, _, hv, _⟩ := (hunch p).mp h2
    rw [hnone] at hv
    cases hv
  · intro p
    constructor
    · intro hp
      rcases hc : FileMap.get current p with _ | c <;>
        rcases hv : FileMap.get target p with _ | v
      · exfalso
        rcases hp with hp | hp
        · rw [FileMap.mem_keys_iff_isSome, hc] at hp
          cases hp
        · rw [FileMap.mem_keys_iff_isSome, hv] at hp
          cases hp
      · exact Or.inl ((hadd p).mpr ⟨by rw [hv]; rfl, Or.inl hc⟩)
      · exact Or.inr (Or.inl ((hrem p).mpr
          ⟨(FileMap.mem_keys_iff_isSome current p).mpr (by rw [hc]; rfl), hv⟩))
      · by_cases hce : c = ""
        · exact Or.inl ((hadd p).mpr ⟨by rw [hv]; rfl, Or.inr (hce ▸ hc)⟩)
        · by_cases hcv : c = v
          · exact Or.inr (Or.inr (Or.inr ((hunch p).mpr ⟨c, hc, hcv ▸ hv, hce⟩)))
          · exact Or.inr (Or.inr (Or.inl ((hmod p).mpr ⟨c, v, hc, hv, hce, hcv⟩)))
    · intro hp
      rcases hp with hp | hp | hp | hp
      · exact Or.inr ((FileMap.mem_keys_iff_isSome target p).mpr ((hadd p).mp hp).1)
      · exact Or.inl ((hrem p).mp hp).1
      · obtain ⟨_, v, _, hv, _, _⟩ := (hmod p).mp hp
        exact Or.inr ((FileMap.mem_keys_iff_isSome target p).mpr (by rw [hv]; rfl))
      · obtain ⟨c, hc, _, _⟩ := (hunch p).mp hp
        exact Or.inl ((FileMap.mem_keys_iff_isSome current p).mpr (by rw [hc]; rfl))
  · intro p hne
    rcases hc : FileMap.get current p with _ | c <;>
      rcases hv : FileMap.get target p with _ | v
    · exact absurd (hc.trans hv.symm) hne
    · exact Or.inl ((hadd p).mpr ⟨by rw [hv]; rfl, Or.inl hc⟩)
    · exact Or.inr (Or.inl ((hrem p).mpr
        ⟨(FileMap.mem_keys_iff_isSome current p).mpr (by rw [hc]; rfl), hv⟩))
    · by_cases hce : c = ""
      · exact Or.inl ((hadd p).mpr ⟨by rw [hv]; rfl, Or.inr (hce ▸ hc)⟩)
      · by_cases hcv : c = v
        · exfalso
          rw [hc, hv] at hne
          exact hne (by rw [hcv])
        · exact Or.inr (Or.inr ((hmod p).mpr ⟨c, v, hc, hv, hce, hcv⟩))

/-- C2, witness: the differing-path coverage of the amended partition
evaluated on a concrete pair of maps at the differing path `/a`. -/
theorem computeDiff_partition_witness :
    "/a" ∈ (computeDiff [("/a", "1")] [("/b", "2")]).added ∨
      "/a" ∈ (computeDiff [("/a", "1")] [("/b", "2")]).removed ∨
      "/a" ∈ (computeDiff [("/a", "1")] [("/b", "2")]).modified :=
  (computeDiff_partition [("/a", "1")] [("/b", "2")] (by decide)).2.2.2.2 "/a"
    (by decide)

/-! ### Data model (`engine/types.ts`)

`Template.files` is carried in its canonical flattened form, which is the
only view the diff engine and the orchestration engine consult.
`dependencies`/`devDependencies` are string-valued records; their
`JSON.stringify` hashes are embedded as the ordered association lists
themselves (stringification of a string record is injective and
order-preserving). -/

/-- A project template (`Template` in `engine/types.ts`); `commandsDev`
is `commands.dev`. -/
structure Template where
  id : String
  files : FileMap
  dependencies : List (String × String)
  devDependencies : List (String × String)
  commandsDev : String
  entryFile : String
deriving Repr, DecidableEq

/-- Engine status (`PlaygroundStatus`). -/
inductive PlaygroundStatus where
  | initializing
  | installing
  | ready
  | error
deriving Repr, DecidableEq

/-! ### Template cache (`TemplateCache`) -/

/-- A cache slot (`CacheEntry`): the template plus its insertion
timestamp (`Date.now()` at `set` time). -/
structure CacheEntry where
  template : Template
  timestamp : Int
deriving Repr, DecidableEq

/-- Cache configuration (`TemplateCacheOptions` with the constructor's
defaults applied). -/
structure TemplateCacheOptions where
  ttl : Int
  maxSize : Nat
deriving Repr, DecidableEq

/-- The `cache` map of `TemplateCache`, in insertion order. -/
abbrev TemplateCacheMap := List (String × CacheEntry)

/-- One step of `TemplateCache.getOldestKey`'s scan: keep the first entry
whose timestamp is strictly below the best so far (`oldestTime` starts at
`Infinity`, embedded as the `none` accumulator). -/
def oldestStep (acc : Option (String × CacheEntry)) (kv : String × CacheEntry) :
    Option (String × CacheEntry) :=
  match acc with
  | none => some kv
  | some best => if kv.2.timestamp < best.2.timestamp then some kv else best

/-- `TemplateCache.getOldestKey`: key of the entry with the smallest
insertion timestamp (first such entry on ties). -/
def TemplateCache.getOldestKey (c : TemplateCacheMap) : Option String :=
  (c.foldl oldestStep none).map Prod.fst

/-- `TemplateCache.get`: absent gives `none`; an entry older than `ttl`
is deleted and `none` returned; otherwise the template is returned with
the cache untouched. -/
def TemplateCache.get (opts : TemplateCacheOptions) (c : TemplateCacheMap)
    (templateId : String) (now : Int) : Option Template × TemplateCacheMap :=
  match jsGet c templateId with
  | none => (none, c)
  | some entry =>
    if opts.ttl < now - entry.timestamp then (none, jsDelete c templateId)
    else (some entry.template, c)

/-- `TemplateCache.set`: when the cache has reached `maxSize`, delete the
entry named by `getOldestKey`, then insert the new entry with the current
time as its insertion timestamp. -/
def TemplateCache.set (opts : TemplateCacheOptions) (c : TemplateCacheMap)
    (templateId : String) (template : Template) (now : Int) : TemplateCacheMap :=
  let c2 :=
    if opts.maxSize ≤ c.length then
      match TemplateCache.getOldestKey c with
      | some oldestKey => jsDelete c oldestKey
      | none => c
    else c
  jsSet c2 templateId ⟨template, now⟩

theorem foldl_oldestStep_min {k : String} {e : CacheEntry} :
    ∀ (c : TemplateCacheMap) (b : String × CacheEntry),
      (b = (k, e) ∨ ((k, e) ∈ c ∧ e.timestamp < b.2.timestamp)) →
      (∀ kv ∈ c, kv ≠ (k, e) → e.timestamp < kv.2.timestamp) →
      c.foldl oldestStep (some b) = some (k, e) := by
  intro c
  induction c with
  | nil =>
    intro b hb _
    rcases hb with hb | hb
    · rw [List.foldl_nil, hb]
    · cases hb.1
  | cons hd tl ih =>
    intro b hb hmin
    rw [List.foldl_cons]
    have hmin' : ∀ kv ∈ tl, kv ≠ (k, e) → e.timestamp < kv.2.timestamp :=
      fun kv hkv => hmin kv (List.mem_cons_of_mem _ hkv)
    rcases hb with hb | ⟨hmem, hlt⟩
    · subst hb
      by_cases hhd : hd = (k, e)
      · subst hhd
        have hstep : oldestStep (some (k, e)) (k, e) = some (k, e) := by
          simp [oldestStep]
        rw [hstep]
        exact ih (k, e) (Or.inl rfl) hmin'
      · have hgt : e.timestamp < hd.2.timestamp := hmin hd (List.mem_cons_self _ _) hhd
        have hstep : oldestStep (some (k, e)) hd = some (k, e) := by
          simp only [oldestStep, if_neg (not_lt.mpr (le_of_lt hgt))]
        rw [hstep]
        exact ih (k, e) (Or.inl rfl) hmin'
    · by_cases hhd : hd = (k, e)
      · subst hhd
        have hstep : oldestStep (some b) (k, e) = some (k, e) := by
          simp only [oldestStep, if_pos hlt]
        rw [hstep]
        exact ih (k, e) (Or.inl rfl) hmin'
      · have htl : (k, e) ∈ tl := by
          rcases List.mem_cons.mp hmem with hc | hc
          · exact absurd hc.symm hhd
          · exact hc
        have hgt : e.timestamp < hd.2.timestamp := hmin hd (List.mem_cons_self _ _) hhd
        rcases hstep : oldestStep (some b) hd with _ | b2
        · exfalso
          simp only [oldestStep] at hstep
          by_cases hc : hd.2.timestamp < b.2.timestamp
          · rw [if_pos hc] at hstep
            cases hstep
          · rw [if_neg hc] at hstep
            cases hstep
        · have hb2 : e.timestamp < b2.2.timestamp := by
            simp only [oldestStep] at hstep
            by_cases hc : hd.2.timestamp < b.2.timestamp
            · rw [if_pos hc] at hstep
              injection hstep with hstep
              rw [← hstep]
              exact hgt
            · rw [if_neg hc] at hstep
              injection hstep with hstep
              rw [← hstep]
              exact hlt
          exact ih b2 (Or.inr ⟨htl, hb2⟩) hmin'

theorem getOldestKey_eq_min {c : TemplateCacheMap} {k : String} {e : CacheEntry}
    (hmem : (k, e) ∈ c)
    (hmin : ∀ kv ∈ c, kv ≠ (k, e) → e.timestamp < kv.2.timestamp) :
    TemplateCache.getOldestKey c = some k := by
  rcases c with _ | ⟨hd, tl⟩
  · cases hmem
  · rw [TemplateCache.getOldestKey, List.foldl_cons]
    have hstep : oldestStep none hd = some hd := rfl
    rw [hstep]
    have hb : hd = (k, e) ∨ ((k, e) ∈ tl ∧ e.timestamp < hd.2.timestamp) := by
      by_cases hhd : hd = (k, e)
      · exact Or.inl hhd
      · rcases List.mem_cons.mp hmem with hc | hc
        · exact absurd hc.symm hhd
        · exact Or.inr ⟨hc, hmin hd (List.mem_cons_self _ _) hhd⟩
    rw [foldl_oldestStep_min tl hd hb
      (fun kv hkv => hmin kv (List.mem_cons_of_mem _ hkv))]
    rfl

/-! ### Claim C6 -/

/-- C6: with the cache at `maxSize`, `set` evicts exactly the entry with
the (unique) smallest insertion timestamp before inserting the new entry;
`get` on an entry whose age exceeds `ttl` deletes it and returns nothing;
`get` on an unexpired entry returns its template and leaves the cache
unchanged. -/
theorem templateCache_eviction_and_ttl (opts : TemplateCacheOptions) :
    (∀ (c : TemplateCacheMap) (templateId : String) (template : Template)
        (now : Int) (k : String) (e : CacheEntry),
        c.length = opts.maxSize → (k, e) ∈ c →
        (∀ kv ∈ c, kv ≠ (k, e) → e.timestamp < kv.2.timestamp) →
        TemplateCache.getOldestKey c = some k ∧
          TemplateCache.set opts c templateId template now =
            jsSet (jsDelete c k) templateId ⟨template, now⟩) ∧
    (∀ (c : TemplateCacheMap) (templateId : String) (now : Int) (e : CacheEntry),
        jsGet c templateId = some e → opts.ttl < now - e.timestamp →
        TemplateCache.get opts c templateId now = (none, jsDelete c templateId)) ∧
    (∀ (c : TemplateCacheMap) (templateId : String) (now : Int) (e : CacheEntry),
        jsGet c templateId = some e → now - e.timestamp ≤ opts.ttl →
        TemplateCache.get opts c templateId now = (some e.template, c)) := by
  refine ⟨?_, ?_, ?_⟩
  · intro c templateId template now k e hlen hmem hmin
    have hold := getOldestKey_eq_min hmem hmin
    refine ⟨hold, ?_⟩
    simp only [TemplateCache.set]
    rw [if_pos (le_of_eq hlen.symm), hold]
  · intro c templateId now e hget hexp
    simp only [TemplateCache.get, hget]
    rw [if_pos hexp]
  · intro c templateId now e hget hfresh
    simp only [TemplateCache.get, hget]
    rw [if_neg (not_lt.mpr hfresh)]

/-- Concrete templates and a concrete two-entry cache for evaluating the
cache claims. -/
def tmplA : Template := ⟨"a", [("/a.js", "1")], [], [], "npm run dev", "/a.js"⟩

def tmplB : Template := ⟨"b", [("/b.js", "2")], [], [], "npm run dev", "/b.js"⟩

def tmplC : Template := ⟨"c", [("/c.js", "3")], [], [], "npm run dev", "/c.js"⟩

def cacheAB : TemplateCacheMap := [("a", ⟨tmplA, 5⟩), ("b", ⟨tmplB, 9⟩)]

/-- C6, witness: on a cache of two entries with `maxSize = 2`, inserting a
third id evicts the oldest entry `"a"`; an expired `get` deletes the
entry; a fresh `get` returns the template unchanged. -/
theorem templateCache_eviction_and_ttl_witness :
    (TemplateCache.getOldestKey cacheAB = some "a" ∧
       TemplateCache.set ⟨1000, 2⟩ cacheAB "c" tmplC 20 =
         jsSet (jsDelete cacheAB "a") "c" ⟨tmplC, 20⟩) ∧
    TemplateCache.get ⟨1000, 2⟩ cacheAB "a" 2000 = (none, jsDelete cacheAB "a") ∧
    TemplateCache.get ⟨1000, 2⟩ cacheAB "a" 100 = (some tmplA, cacheAB) :=
  ⟨(templateCache_eviction_and_ttl ⟨1000, 2⟩).1 cacheAB "c" tmplC 20 "a" ⟨tmplA, 5⟩
      (by decide) (by decide) (by decide),
   (templateCache_eviction_and_ttl ⟨1000, 2⟩).2.1 cacheAB "a" 2000 ⟨tmplA, 5⟩
      (by decide) (by decide),
   (templateCache_eviction_and_ttl ⟨1000, 2⟩).2.2 cacheAB "a" 100 ⟨tmplA, 5⟩
      (by decide) (by decide)⟩

/-! ### Snapshot persistence (`PersistenceManager`)

`localStorage` stores strings; a stored snapshot string is represented by
its parsed JSON value (`JSON.parse` inverts `JSON.stringify` on this
fragment), and reading the parsed object back at the snapshot type is the
decoding below. -/

/-- JSON values of the fragment produced by `JSON.stringify` on a
snapshot. -/
inductive Json where
  | str (s : String)
  | num (n : Int)
  | arr (items : List Json)
  | obj (fields : List (String × Json))

/-- A session snapshot (`PlaygroundSnapshot` in `engine/types.ts`);
`version` and `timestamp` are JS numbers. -/
structure PlaygroundSnapshot where
  version : Int
  timestamp : Int
  files : List (String × String)
  openTabs : List String
  activeFile : String
  templateId : String
deriving Repr, DecidableEq

/-- `JSON.stringify` of a snapshot, at the value level. -/
def encodeSnapshot (s : PlaygroundSnapshot) : Json :=
  Json.obj
    [("version", Json.num s.version),
     ("timestamp", Json.num s.timestamp),
     ("files", Json.obj (s.files.map (fun kv => (kv.1, Json.str kv.2)))),
     ("openTabs", Json.arr (s.openTabs.map Json.str)),
     ("activeFile", Json.str s.activeFile),
     ("templateId", Json.str s.templateId)]

/-- Reading the parsed `files` record back as a string map. -/
def decodeFiles : List (String × Json) → Option (List (String × String))
  | [] => some []
  | (k, Json.str v) :: rest => (decodeFiles rest).map (fun l => (k, v) :: l)
  | _ => none

/-- Reading a parsed JSON array back as a string list. -/
def decodeStrings : List Json → Option (List String)
  | [] => some []
  | Json.str s :: rest => (decodeStrings rest).map (fun l => s :: l)
  | _ => none

/-- Reading a parsed JSON value back at the snapshot type. -/
def decodeSnapshot : Json → Option PlaygroundSnapshot
  | Json.obj fields =>
    match jsGet fields "version", jsGet fields "timestamp", jsGet fields "files",
        jsGet fields "openTabs", jsGet fields "activeFile",
        jsGet fields "templateId" with
    | some (Json.num v), some (Json.num ts), some (Json.obj fs),
        some (Json.arr tabs), some (Json.str af), some (Json.str tid) =>
      match decodeFiles fs, decodeStrings tabs with
      | some fs2, some tabs2 => some ⟨v, ts, fs2, tabs2, af, tid⟩
      | _, _ => none
    | _, _, _, _, _, _ => none
  | _ => none

/-- The persistent key-value store behind `PersistenceManager`. -/
abbrev Storage := List (String × Json)

/-- The storage key `playground-{playgroundId}` chosen in the
`PersistenceManager` constructor. -/
def storageKey (playgroundId : String) : String := "playground-" ++ playgroundId

/-- `PersistenceManager.saveSnapshot`: serialize the snapshot and store it
under the manager's key. -/
def PersistenceManager.saveSnapshot (store : Storage) (playgroundId : String)
    (snapshot : PlaygroundSnapshot) : Storage :=
  jsSet store (storageKey playgroundId) (encodeSnapshot snapshot)

/-- `PersistenceManager.loadSnapshot`: read the stored string under the
manager's key and parse it; absent gives `none` (and a parse failure is
caught, also giving `none`). -/
def PersistenceManager.loadSnapshot (store : Storage) (playgroundId : String) :
    Option PlaygroundSnapshot :=
  match jsGet store (storageKey playgroundId) with
  | none => none
  | some j => decodeSnapshot j

theorem jsGet_jsSet_self {α : Type} (m : List (String × α)) (k : String) (v : α) :
    jsGet (jsSet m k v) k = some v := by
  induction m with
  | nil => simp [jsSet, jsGet]
  | cons kv rest ih =>
    obtain ⟨a, b⟩ := kv
    by_cases hk : a = k
    · subst hk
      show jsGet (if a = a then (a, v) :: rest else (a, b) :: jsSet rest a v) a = some v
      rw [if_pos rfl]
      show (if a = a then some v else jsGet rest a) = some v
      rw [if_pos rfl]
    · show jsGet (if a = k then (k, v) :: rest else (a, b) :: jsSet rest k v) k = some v
      rw [if_neg hk]
      show (if a = k then some b else jsGet (jsSet rest k v) k) = some v
      rw [if_neg hk]
      exact ih

theorem decodeFiles_encode (l : List (String × String)) :
    decodeFiles (l.map (fun kv => (kv.1, Json.str kv.2))) = some l := by
  induction l with
  | nil => rfl
  | cons kv rest ih =>
    obtain ⟨a, b⟩ := kv
    simp [decodeFiles, ih]

theorem decodeStrings_encode (l : List String) :
    decodeStrings (l.map Json.str) = some l := by
  induction l with
  | nil => rfl
  | cons s rest ih => simp [decodeStrings, ih]

theorem decodeSnapshot_encodeSnapshot (s : PlaygroundSnapshot) :
    decodeSnapshot (encodeSnapshot s) = some s := by
  simp [decodeSnapshot, encodeSnapshot, jsGet, decodeFiles_encode, decodeStrings_encode]

/-! ### Claim C7 -/

/-- C7: for every well-formed snapshot and starting store contents,
loading after saving under the same storage key returns exactly the saved
snapshot. -/
theorem persistence_roundtrip (store : Storage) (playgroundId : String)
    (snapshot : PlaygroundSnapshot) :
    PersistenceManager.loadSnapshot
        (PersistenceManager.saveSnapshot store playgroundId snapshot)
        playgroundId = some snapshot := by
  simp only [PersistenceManager.loadSnapshot, PersistenceManager.saveSnapshot,
    jsGet_jsSet_self]
  exact decodeSnapshot_encodeSnapshot snapshot

/-! ### Orchestration engine (`PlaygroundEngine`)

The engine's asynchronous methods are embedded as functions from an
engine state and an environment (the outcomes of the I/O the method
performs: sandbox boot, filesystem reads, installer exit code, stored
snapshot) to a trace of the externally visible operations they perform,
the successor state, and whether the method threw. -/

/-- Externally visible operations performed by the engine methods. -/
inductive Event where
  | statusChange (s : PlaygroundStatus)
  | persistSave (key : String)
  | fsMount
  | fsRemove (path : String)
  | fsRemoveEmptyDir (path : String)
  | fsMkdir (path : String)
  | fsWrite (path : String) (content : String)
  | fsReadManifest
  | fsWriteManifest (dependencies devDependencies : List (String × String))
  | clearCache
  | spawnInstaller
  | killAll
  | previewStart (command : String)
  | emitError
  | emitFilesUpdate
  | editorOpen (path : String)
  | delegateInitCall (templateId : String)
deriving Repr, DecidableEq

/-- Whether an event mutates the sandbox filesystem. -/
def Event.isFsMutation : Event → Bool
  | .fsMount => true
  | .fsRemove _ => true
  | .fsRemoveEmptyDir _ => true
  | .fsMkdir _ => true
  | .fsWrite _ _ => true
  | .fsWriteManifest _ _ => true
  | _ => false

/-- The engine fields the claims depend on.  `hasManagers` is the
non-nullness of `templateManager`/`filesystemManager` (created together
after a successful boot); `currentFiles` is `TemplateManager`'s mounted
state; `installedDependenciesHash` carries the `JSON.stringify` hash of
the last installed dependency record, embedded as the record itself. -/
structure EngineState where
  currentTemplate : Option Template
  hasManagers : Bool
  currentFiles : FileMap
  status : PlaygroundStatus
  installedDependenciesHash : Option (List (String × String))
deriving Repr, DecidableEq

/-- The parsed contents of a `/package.json` found in the mounted tree
(`templatePackageJson` in `installDependencies`); a missing or
unparseable file is `none` and is treated as the empty object. -/
structure PackageManifest where
  name : Option String
  version : Option String
  moduleType : Option String
  scripts : List (String × String)
  dependencies : List (String × String)
  devDependencies : List (String × String)
deriving Repr, DecidableEq

/-- The empty parsed manifest (`{}`). -/
def emptyManifest : PackageManifest := ⟨none, none, none, [], [], []⟩

/-- Outcomes of the I/O performed during one engine method call. -/
structure Env where
  saveFails : Bool
  storedSnapshot : Option PlaygroundSnapshot
  manifest : Option PackageManifest
  nodeModulesExists : Bool
  installerExitCode : Int
  previewFails : Bool
  bootFails : Bool
  mountedTopLevel : List String
  emptyDirs : List String
deriving Repr, DecidableEq

/-- The trace, successor state and thrown-or-not outcome of one engine
method call. -/
structure StepResult where
  trace : List Event
  state : EngineState
  threw : Bool
deriving Repr, DecidableEq

/-- JS object spread `{...a, ...b}` on string records: keys of `a` in
order with values overridden by `b`, then the keys of `b` not in `a`. -/
def mergeRecords (a b : List (String × String)) : List (String × String) :=
  a.map (fun kv => (kv.1, (jsGet b kv.1).getD kv.2)) ++
    b.filter (fun kv => (jsGet a kv.1).isNone)

/-- The merged `packageJson` object built by `installDependencies` from
the mounted manifest and the current template: template dependencies win
on conflict, and the mounted manifest's `devDependencies` are kept
as-is. -/
def mergedManifest (t : Template) (m : Option PackageManifest) : PackageManifest :=
  let tpl := m.getD emptyManifest
  { name := some (tpl.name.getD t.id),
    version := some (tpl.version.getD "1.0.0"),
    moduleType := some (tpl.moduleType.getD "module"),
    scripts := tpl.scripts,
    dependencies := mergeRecords tpl.dependencies t.dependencies,
    devDependencies := tpl.devDependencies }

/-- `PlaygroundEngine.installDependencies`.  In order: return at once when
there is no current template or its `dependencies` record is empty; skip
when the in-memory hash of the last successful install equals the fresh
hash; otherwise read the mounted manifest, write the merged manifest
(always reached here, since `dependencies` is nonempty), skip when
`node_modules` exists and the merged manifest's dependency records match
the fresh hashes, and otherwise run the installer, throwing (after
emitting an error event) on a nonzero exit code.  The webcontainer
instance is assumed present, as at both call sites. -/
def installDependencies (st : EngineState) (env : Env) : StepResult :=
  match st.currentTemplate with
  | none => ⟨[], st, false⟩
  | some t =>
    if t.dependencies = [] then ⟨[], st, false⟩
    else if st.installedDependenciesHash = some t.dependencies then ⟨[], st, false⟩
    else
      let merged := mergedManifest t env.manifest
      let tr1 : List Event :=
        if merged.scripts ≠ [] ∨ t.dependencies ≠ [] then
          [Event.fsReadManifest,
           Event.fsWriteManifest merged.dependencies merged.devDependencies]
        else [Event.fsReadManifest]
      if env.nodeModulesExists = true ∧ merged.dependencies = t.dependencies ∧
          merged.devDependencies = t.devDependencies then
        ⟨tr1, { st with installedDependenciesHash := some t.dependencies }, false⟩
      else if env.installerExitCode = 0 then
        ⟨tr1 ++ [Event.spawnInstaller],
         { st with installedDependenciesHash := some t.dependencies }, false⟩
      else
        ⟨tr1 ++ [Event.spawnInstaller, Event.emitError], st, true⟩

/-- `PlaygroundEngine.saveSnapshot`: a no-op unless both the filesystem
manager and a current template exist; otherwise builds the snapshot and
persists it under `playground-{currentTemplate.id}` (the pair is the
trace and whether the call threw). -/
def engineSaveSnapshot (st : EngineState) (env : Env) : List Event × Bool :=
  match st.currentTemplate, st.hasManagers with
  | some t, true =>
    if env.saveFails then ([], true)
    else ([Event.persistSave (storageKey t.id)], false)
  | _, _ => ([], false)

/-- `PlaygroundEngine.loadSnapshot`: returns `false` with no effects when
no snapshot is stored, the filesystem manager is missing, or the stored
snapshot's `templateId` differs from the current template's id; otherwise
writes every snapshot file, reopens the recorded tabs, reopens the active
file when nonempty (JS truthiness), and returns `true`. -/
def engineLoadSnapshot (currentTemplate : Option Template) (hasManagers : Bool)
    (stored : Option PlaygroundSnapshot) : List Event × Bool :=
  match stored with
  | none => ([], false)
  | some snap =>
    if hasManagers = false then ([], false)
    else
      let mismatch : Bool :=
        match currentTemplate with
        | some c => snap.templateId != c.id
        | none => true
      if mismatch then ([], false)
      else
        (snap.files.map (fun kv => Event.fsWrite kv.1 kv.2) ++
           snap.openTabs.map Event.editorOpen ++
           (if snap.activeFile != "" then [Event.editorOpen snap.activeFile]
            else []),
         true)

/-- `path.substring(0, path.lastIndexOf('/'))`: the parent directory used
by `applyDiff` before writing a file (empty when the path has no slash or
starts with its only slash). -/
def parentDir (p : String) : String :=
  match p.toList.reverse.findIdx? (fun c => c = '/') with
  | some j => String.mk (p.toList.take (p.toList.length - 1 - j))
  | none => ""

/-- The filesystem operations of `TemplateManager.applyDiff`: removals
first (individual failures are caught and skipped in the source, so they
do not alter the trace of attempts), then the empty-directory cleanup
(the directories found empty are supplied by the environment), then the
writes for `added ++ modified` — skipping a path whose target content is
missing **or empty** (JS truthiness of `if (content)`), and creating the
parent directory when it is neither empty nor `/`. -/
def applyDiffTrace (diff : FileDiff) (targetFiles : FileMap)
    (emptyDirs : List String) : List Event :=
  diff.removed.map Event.fsRemove ++
    emptyDirs.map Event.fsRemoveEmptyDir ++
    (diff.added ++ diff.modified).flatMap (fun p =>
      match FileMap.get targetFiles p with
      | some c =>
        if c ≠ "" then
          (if parentDir p ≠ "" ∧ parentDir p ≠ "/" then [Event.fsMkdir (parentDir p)]
           else []) ++ [Event.fsWrite p c]
        else []
      | none => [])

/-- The update `applyDiff` makes to `TemplateManager.currentFiles`:
deletions for removed paths, then insertions for each written file. -/
def applyDiffFiles (currentFiles : FileMap) (diff : FileDiff)
    (targetFiles : FileMap) : FileMap :=
  let afterRemove := diff.removed.foldl (fun m p => jsDelete m p) currentFiles
  (diff.added ++ diff.modified).foldl (fun m p =>
    match FileMap.get targetFiles p with
    | some c => if c ≠ "" then jsSet m p c else m
    | none => m) afterRemove

/-- `PlaygroundEngine.initialize`.  Status goes to `initializing`; when a
filesystem manager (and so a live container) already exists, the
filesystem is cleared (every top-level entry except `node_modules`) and
the recorded install hash reset; `currentTemplate` is set before the boot
attempt, so a boot failure leaves it pointing at the new template with no
managers; after a successful boot the managers exist, the template's tree
is mounted and recorded as current, a stored snapshot for this template
is restored silently, status goes to `installing`, dependencies are
installed, the dev server is started, and status goes to `ready`.  Any
failure is caught: status goes to `error`, an error event is emitted, and
the failure is rethrown.  (The static template cache is consulted only to
feed the external store and does not affect these fields.) -/
def engineInitialize (st : EngineState) (t : Template) (env : Env) : StepResult :=
  let clearTrace : List Event :=
    if st.hasManagers then
      (env.mountedTopLevel.filter (fun n => n ≠ "node_modules")).map Event.fsRemove
    else []
  let st1 : EngineState :=
    { st with
        currentTemplate := some t,
        status := PlaygroundStatus.initializing,
        installedDependenciesHash :=
          if st.hasManagers then none else st.installedDependenciesHash }
  if env.bootFails then
    ⟨Event.statusChange .initializing :: clearTrace ++
       [Event.statusChange .error, Event.emitError],
     { st1 with status := .error }, true⟩
  else
    let st2 : EngineState :=
      { st1 with hasManagers := true, currentFiles := t.files }
    let snapTrace := (engineLoadSnapshot (some t) true env.storedSnapshot).1
    let st3 : EngineState := { st2 with status := .installing }
    let ir := installDependencies st3 env
    let traceHead :=
      Event.statusChange .initializing :: clearTrace ++ [Event.fsMount] ++
        snapTrace ++ [Event.statusChange .installing]
    if ir.threw then
      ⟨traceHead ++ ir.trace ++ [Event.statusChange .error, Event.emitError],
       { ir.state with status := .error }, true⟩
    else if env.previewFails then
      ⟨traceHead ++ ir.trace ++
         [Event.previewStart t.commandsDev, Event.statusChange .error,
          Event.emitError],
       { ir.state with status := .error }, true⟩
    else
      ⟨traceHead ++ ir.trace ++
         [Event.previewStart t.commandsDev, Event.statusChange .ready],
       { ir.state with status := .ready }, false⟩

/-- Steps 5–10 of `switchTemplate` (after diff application and any
dependency install): kill all processes, restart the dev server with the
new template's command (a failure is caught: status `error`, error event,
rethrow), update `currentTemplate`/`currentFiles`, restore a stored
snapshot for the new template silently, emit the refreshed file tree, and
set status `ready`. -/
def switchTail (st : EngineState) (nt : Template) (env : Env)
    (tr : List Event) : StepResult :=
  let tr2 := tr ++ [Event.killAll, Event.previewStart nt.commandsDev]
  if env.previewFails then
    ⟨tr2 ++ [Event.statusChange .error, Event.emitError],
     { st with status := .error }, true⟩
  else
    let st2 : EngineState :=
      { st with currentTemplate := some nt, currentFiles := nt.files }
    let snapTrace := (engineLoadSnapshot (some nt) true env.storedSnapshot).1
    ⟨tr2 ++ snapTrace ++ [Event.emitFilesUpdate, Event.statusChange .ready],
     { st2 with status := .ready }, false⟩

/-- Steps 2–10 of `switchTemplate` after a successful snapshot save:
compute the diff against the mounted state, apply it (per-file failures
are swallowed), clear the read cache, compare the two templates'
dependency records (the concatenated `JSON.stringify` comparison of
`dependenciesChanged`) and re-run `installDependencies` when they differ
— note that `currentTemplate` still holds the *old* template at that
point — catching an install failure (status `error`, error event,
rethrow), then finish with `switchTail`. -/
def switchTemplateBody (st0 : EngineState) (ct nt : Template) (env : Env) :
    StepResult :=
  let diff := computeDiff st0.currentFiles nt.files
  let trPre := applyDiffTrace diff nt.files env.emptyDirs ++ [Event.clearCache]
  let stA : EngineState :=
    { st0 with currentFiles := applyDiffFiles st0.currentFiles diff nt.files }
  if ct.dependencies = nt.dependencies ∧ ct.devDependencies = nt.devDependencies then
    switchTail stA nt env trPre
  else
    let stB : EngineState := { stA with status := .installing }
    let ir := installDependencies stB env
    let tr1 := trPre ++ [Event.statusChange .installing] ++ ir.trace
    if ir.threw then
      ⟨tr1 ++ [Event.statusChange .error, Event.emitError],
       { ir.state with status := .error }, true⟩
    else
      switchTail ir.state nt env tr1

/-- `PlaygroundEngine.switchTemplate`.  With no current template or no
managers it delegates to a full `initialize` (marked by an
`delegateInitCall` event); with the same template id it is a no-op;
otherwise it sets status `initializing`, saves a snapshot of the current
template (a save failure is caught: status `error`, error event,
rethrow), and runs the switch body. -/
def switchTemplate (st : EngineState) (nt : Template) (env : Env) : StepResult :=
  match st.currentTemplate, st.hasManagers with
  | some ct, true =>
    if ct.id = nt.id then ⟨[], st, false⟩
    else
      let st0 : EngineState := { st with status := PlaygroundStatus.initializing }
      match engineSaveSnapshot st0 env with
      | (saveTrace, true) =>
        ⟨Event.statusChange .initializing :: saveTrace ++
           [Event.statusChange .error, Event.emitError],
         { st0 with status := .error }, true⟩
      | (saveTrace, false) =>
        let r := switchTemplateBody st0 ct nt env
        ⟨Event.statusChange .initializing :: saveTrace ++ r.trace, r.state, r.threw⟩
  | _, _ =>
    let r := engineInitialize st nt env
    ⟨Event.delegateInitCall nt.id :: r.trace, r.state, r.threw⟩

theorem initCall_not_mem_applyDiffTrace (tid : String) (d : FileDiff)
    (tf : FileMap) (dirs : List String) :
    Event.delegateInitCall tid ∉ applyDiffTrace d tf dirs := by
  intro h
  rw [applyDiffTrace] at h
  rcases List.mem_append.mp h with h | h
  · rcases List.mem_append.mp h with h | h
    · obtain ⟨p, _, hp⟩ := List.mem_map.mp h
      cases hp
    · obtain ⟨p, _, hp⟩ := List.mem_map.mp h
      cases hp
  · obtain ⟨p, _, hp⟩ := List.mem_flatMap.mp h
    rcases hg : FileMap.get tf p with _ | c
    · simp [hg] at hp
    · simp only [hg] at hp
      split at hp
      · rcases List.mem_append.mp hp with h2 | h2
        · split at h2
          · cases List.mem_singleton.mp h2
          · cases h2
        · cases List.mem_singleton.mp h2
      · cases hp

theorem mem_engineLoadSnapshot_trace {ct : Option Template} {hm : Bool}
    {s : Option PlaygroundSnapshot} {e : Event}
    (h : e ∈ (engineLoadSnapshot ct hm s).1) :
    (∃ p c, e = Event.fsWrite p c) ∨ ∃ p, e = Event.editorOpen p := by
  rcases s with _ | snap
  · cases h
  · simp only [engineLoadSnapshot] at h
    split at h
    · cases h
    · split at h
      · cases h
      · rcases List.mem_append.mp h with h2 | h2
        · rcases List.mem_append.mp h2 with h3 | h3
          · obtain ⟨kv, _, hkv⟩ := List.mem_map.mp h3
            exact Or.inl ⟨kv.1, kv.2, hkv.symm⟩
          · obtain ⟨p, _, hp⟩ := List.mem_map.mp h3
            exact Or.inr ⟨p, hp.symm⟩
        · split at h2
          · exact Or.inr ⟨_, List.mem_singleton.mp h2⟩
          · cases h2

/-! ### Claim C4 -/

/-- Concrete template, engine state and environment exercising the
install gate: the in-memory hash matches the template's dependencies while
`node_modules` is absent. -/
def c4Template : Template :=
  ⟨"t1", [("/a.js", "1")], [("react", "^19.0.0")], [], "npm run dev", "/a.js"⟩

def c4State : EngineState :=
  ⟨some c4Template, true, [("/a.js", "1")], .ready, some [("react", "^19.0.0")]⟩

def c4Env : Env := ⟨false, none, none, false, 0, false, false, [], []⟩

/-- C4, counterexample: with the freshly computed dependency hash equal to
the recorded one but `node_modules` absent, the claim requires the gate to
write the merged manifest and run the installer; the code's first
short-circuit (`installedDependenciesHash === depsHash`) returns
beforehand without consulting `node_modules`, so nothing at all is done. -/
theorem installDependencies_skips_without_node_modules :
    (installDependencies c4State c4Env).trace = [] ∧
      c4State.installedDependenciesHash = some c4Template.dependencies ∧
      c4Env.nodeModulesExists = false ∧ c4Template.dependencies ≠ [] := by
  decide

/-- C4 (amended): the install gate skips invoking the installer exactly
when the dependency record is empty, **or** the freshly computed hash
equals the in-memory hash recorded from the last successful installation
(checked *without* consulting `node_modules`), **or** `node_modules`
exists and the *merged manifest's* dependency and devDependency records
equal the fresh hashes; moreover, whenever the first two conditions fail
the merged manifest is written — even when the installer is then
skipped via the `node_modules` check. -/
theorem installDependencies_skip_iff (st : EngineState) (env : Env)
    (t : Template) (hct : st.currentTemplate = some t) :
    (Event.spawnInstaller ∉ (installDependencies st env).trace ↔
       t.dependencies = [] ∨
         st.installedDependenciesHash = some t.dependencies ∨
         (env.nodeModulesExists = true ∧
           (mergedManifest t env.manifest).dependencies = t.dependencies ∧
           (mergedManifest t env.manifest).devDependencies = t.devDependencies)) ∧
    (t.dependencies ≠ [] → st.installedDependenciesHash ≠ some t.dependencies →
       Event.fsWriteManifest (mergedManifest t env.manifest).dependencies
           (mergedManifest t env.manifest).devDependencies ∈
         (installDependencies st env).trace) := by
  simp only [installDependencies, hct]
  by_cases h1 : t.dependencies = []
  · rw [if_pos h1]
    exact ⟨iff_of_true (by simp) (Or.inl h1), fun h2 _ => absurd h1 h2⟩
  · rw [if_neg h1]
    by_cases h2 : st.installedDependenciesHash = some t.dependencies
    · rw [if_pos h2]
      exact ⟨iff_of_true (by simp) (Or.inr (Or.inl h2)), fun _ h3 => absurd h2 h3⟩
    · rw [if_neg h2, if_pos (Or.inr h1)]
      by_cases h3 : env.nodeModulesExists = true ∧
          (mergedManifest t env.manifest).dependencies = t.dependencies ∧
          (mergedManifest t env.manifest).devDependencies = t.devDependencies
      · rw [if_pos h3]
        exact ⟨iff_of_true (by simp) (Or.inr (Or.inr h3)), fun _ _ => by simp⟩
      · rw [if_neg h3]
        by_cases h4 : env.installerExitCode = 0
        · rw [if_pos h4]
          refine ⟨iff_of_false (by simp) ?_, fun _ _ => by simp⟩
          intro hc
          rcases hc with hc | hc | hc
          · exact h1 hc
          · exact h2 hc
          · exact h3 hc
        · rw [if_neg h4]
          refine ⟨iff_of_false (by simp) ?_, fun _ _ => by simp⟩
          intro hc
          rcases hc with hc | hc | hc
          · exact h1 hc
          · exact h2 hc
          · exact h3 hc

/-- C4, witness: the amended skip condition evaluated at the concrete
state of the counterexample (the in-memory hash matches, so the gate
skips). -/
theorem installDependencies_skip_iff_witness :
    (Event.spawnInstaller ∉ (installDependencies c4State c4Env).trace ↔
       c4Template.dependencies = [] ∨
         c4State.installedDependenciesHash = some c4Template.dependencies ∨
         (c4Env.nodeModulesExists = true ∧
           (mergedManifest c4Template c4Env.manifest).dependencies =
             c4Template.dependencies ∧
           (mergedManifest c4Template c4Env.manifest).devDependencies =
             c4Template.devDependencies)) ∧
    (c4Template.dependencies ≠ [] →
       c4State.installedDependenciesHash ≠ some c4Template.dependencies →
       Event.fsWriteManifest (mergedManifest c4Template c4Env.manifest).dependencies
           (mergedManifest c4Template c4Env.manifest).devDependencies ∈
         (installDependencies c4State c4Env).trace) :=
  installDependencies_skip_iff c4State c4Env c4Template rfl

/-! ### Claim C9 -/

theorem installDependencies_empty_deps (st : EngineState) (env : Env)
    (t : Template) (hct : st.currentTemplate = some t)
    (hdeps : t.dependencies = []) :
    installDependencies st env = ⟨[], st, false⟩ := by
  simp only [installDependencies, hct]
  rw [if_pos hdeps]

/-- C9: with an empty `dependencies` record, `installDependencies` returns
at once — no manifest read or write, no installer spawn, no state change —
whatever `devDependencies` holds; consequently a full `initialize` of a
dependency-free template never spawns the installer. -/
theorem installDependencies_empty_noop :
    (∀ (st : EngineState) (env : Env) (t : Template),
        st.currentTemplate = some t → t.dependencies = [] →
        installDependencies st env = ⟨[], st, false⟩) ∧
    (∀ (st : EngineState) (env : Env) (t : Template), t.dependencies = [] →
        Event.spawnInstaller ∉ (engineInitialize st t env).trace) := by
  refine ⟨installDependencies_empty_deps, ?_⟩
  intro st env t hdeps hmem
  simp only [engineInitialize] at hmem
  rw [installDependencies_empty_deps _ env t rfl hdeps] at hmem
  dsimp only at hmem
  have hcore : Event.spawnInstaller ∉
      (Event.statusChange PlaygroundStatus.initializing ::
          (if st.hasManagers = true then
              (env.mountedTopLevel.filter (fun n => n ≠ "node_modules")).map
                Event.fsRemove
            else [])) ++ [Event.fsMount] ++
        (engineLoadSnapshot (some t) true env.storedSnapshot).1 ++
        [Event.statusChange PlaygroundStatus.installing] := by
    intro h
    rcases List.mem_append.mp h with h | h
    · rcases List.mem_append.mp h with h | h
      · rcases List.mem_append.mp h with h | h
        · rcases List.mem_cons.mp h with h | h
          · cases h
          · split at h
            · obtain ⟨p, _, hp⟩ := List.mem_map.mp h
              cases hp
            · cases h
        · cases List.mem_singleton.mp h
      · rcases mem_engineLoadSnapshot_trace h with ⟨_, _, h2⟩ | ⟨_, h2⟩ <;>
          cases h2
    · cases List.mem_singleton.mp h
  by_cases hboot : env.bootFails = true
  · rw [if_pos hboot] at hmem
    dsimp only at hmem
    rcases List.mem_append.mp hmem with h | h
    · rcases List.mem_cons.mp h with h | h
      · cases h
      · split at h
        · obtain ⟨p, _, hp⟩ := List.mem_map.mp h
          cases hp
        · cases h
    · rcases List.mem_cons.mp h with h | h
      · cases h
      · cases List.mem_singleton.mp h
  · rw [if_neg hboot, if_neg Bool.false_ne_true] at hmem
    by_cases hprev : env.previewFails = true
    · rw [if_pos hprev] at hmem
      dsimp only at hmem
      rcases List.mem_append.mp hmem with h | h
      · rcases List.mem_append.mp h with h | h
        · exact hcore h
        · cases h
      · rcases List.mem_cons.mp h with h | h
        · cases h
        · rcases List.mem_cons.mp h with h | h
          · cases h
          · cases List.mem_singleton.mp h
    · rw [if_neg hprev] at hmem
      dsimp only at hmem
      rcases List.mem_append.mp hmem with h | h
      · rcases List.mem_append.mp h with h | h
        · exact hcore h
        · cases h
      · rcases List.mem_cons.mp h with h | h
        · cases h
        · cases List.mem_singleton.mp h

/-- Concrete dependency-free template (with nonempty `devDependencies`)
and engine state for the install-gate no-op. -/
def c9Template : Template :=
  ⟨"t9", [("/a.js", "1")], [], [("vite", "^7.0.0")], "npm run dev", "/a.js"⟩

def c9State : EngineState := ⟨some c9Template, true, [("/a.js", "1")], .ready, none⟩

def c9Env : Env := ⟨false, none, none, false, 0, false, false, [], []⟩

/-- C9, witness: the no-op evaluated on a concrete dependency-free
template whose `devDependencies` is nonempty. -/
theorem installDependencies_empty_noop_witness :
    installDependencies c9State c9Env = ⟨[], c9State, false⟩ ∧
      Event.spawnInstaller ∉ (engineInitialize c9State c9Template c9Env).trace :=
  ⟨installDependencies_empty_noop.1 c9State c9Env c9Template rfl rfl,
   installDependencies_empty_noop.2 c9State c9Env c9Template rfl⟩

/-! ### Claim C1 -/

/-- C1: once `switchTemplate` passes its short-circuit checks (a current
template with its managers exists and the ids differ), every filesystem
mutation in the call's trace is preceded by the persistence write of the
current template's snapshot; when the save itself throws, the call aborts
with no mutation at all, so the property holds for every run. -/
theorem switchTemplate_saves_before_mutation (st : EngineState) (nt : Template)
    (env : Env) (ct : Template) (hct : st.currentTemplate = some ct)
    (hmg : st.hasManagers = true) (hne : ct.id ≠ nt.id) :
    ∀ pre e post, (switchTemplate st nt env).trace = pre ++ e :: post →
      Event.isFsMutation e = true →
      Event.persistSave (storageKey ct.id) ∈ pre := by
  intro pre e post heq hmut
  by_cases hsave : env.saveFails = true
  · have htr : (switchTemplate st nt env).trace =
        [Event.statusChange PlaygroundStatus.initializing,
         Event.statusChange PlaygroundStatus.error, Event.emitError] := by
      simp [switchTemplate, hct, hmg, engineSaveSnapshot, hsave, hne]
    rw [htr] at heq
    have hmem : e ∈ [Event.statusChange PlaygroundStatus.initializing,
        Event.statusChange PlaygroundStatus.error, Event.emitError] := by
      rw [heq]
      exact List.mem_append_right _ (List.mem_cons_self _ _)
    rcases List.mem_cons.mp hmem with h | h
    · rw [h] at hmut
      simp [Event.isFsMutation] at hmut
    · rcases List.mem_cons.mp h with h | h
      · rw [h] at hmut
        simp [Event.isFsMutation] at hmut
      · rw [List.mem_singleton.mp h] at hmut
        simp [Event.isFsMutation] at hmut
  · have htr : (switchTemplate st nt env).trace =
        Event.statusChange PlaygroundStatus.initializing ::
          Event.persistSave (storageKey ct.id) ::
          (switchTemplateBody { st with status := PlaygroundStatus.initializing }
            ct nt env).trace := by
      simp [switchTemplate, hct, hmg, engineSaveSnapshot, hsave, hne]
    rw [htr] at heq
    rcases pre with _ | ⟨x, pre⟩
    · rw [List.nil_append] at heq
      injection heq with h1 _
      rw [← h1] at hmut
      simp [Event.isFsMutation] at hmut
    · rcases pre with _ | ⟨y, pre⟩
      · simp only [List.cons_append, List.nil_append] at heq
        injection heq with _ h2
        injection h2 with h2 _
        rw [← h2] at hmut
        simp [Event.isFsMutation] at hmut
      · simp only [List.cons_append] at heq
        injection heq with _ h2
        injection h2 with h2 _
        rw [← h2]
        exact List.mem_cons_of_mem _ (List.mem_cons_self _ _)

/-- Concrete templates, engine state and environment for a switch from
`t1` to `t2`. -/
def c1Old : Template := ⟨"t1", [("/a.js", "1")], [], [], "npm run dev", "/a.js"⟩

def c1New : Template := ⟨"t2", [("/b.js", "2")], [], [], "npm run dev", "/b.js"⟩

def c1State : EngineState := ⟨some c1Old, true, [("/a.js", "1")], .ready, none⟩

def c1Env : Env := ⟨false, none, none, false, 0, false, false, [], []⟩

/-- C1, witness: the save-before-mutation property evaluated on a
concrete switch from `t1` to `t2`, at the first filesystem mutation of
its trace (the removal of `/a.js`): the snapshot write is found in the
prefix. -/
theorem switchTemplate_saves_before_mutation_witness :
    Event.persistSave (storageKey "t1") ∈
      [Event.statusChange PlaygroundStatus.initializing,
       Event.persistSave "playground-t1"] :=
  switchTemplate_saves_before_mutation c1State c1New c1Env c1Old rfl rfl
    (by decide)
    [Event.statusChange PlaygroundStatus.initializing,
     Event.persistSave "playground-t1"]
    (Event.fsRemove "/a.js")
    [Event.fsWrite "/b.js" "2", Event.clearCache, Event.killAll,
     Event.previewStart "npm run dev", Event.emitFilesUpdate,
     Event.statusChange PlaygroundStatus.ready]
    (by decide) (by decide)

/-! ### Claim C10 -/

/-- C10: `PlaygroundEngine.loadSnapshot` on a stored snapshot whose
`templateId` differs from the current template's id returns `false` and
performs no file writes and no editor changes (empty trace): the mismatch
is silently ignored, not an error. -/
theorem loadSnapshot_mismatch_ignored (ct : Template)
    (snap : PlaygroundSnapshot) (hne : snap.templateId ≠ ct.id) :
    engineLoadSnapshot (some ct) true (some snap) = ([], false) := by
  simp [engineLoadSnapshot, hne]

def c10Template : Template :=
  ⟨"t1", [("/a.js", "1")], [], [], "npm run dev", "/a.js"⟩

/-- A stored snapshot carrying a different template id (`t2`). -/
def c10Snap : PlaygroundSnapshot :=
  ⟨1, 1000, [("/a.js", "edited")], ["/a.js"], "/a.js", "t2"⟩

/-- C10, witness: the mismatch no-op evaluated on a concrete snapshot
saved by template `t2` while `t1` is current. -/
theorem loadSnapshot_mismatch_ignored_witness :
    engineLoadSnapshot (some c10Template) true (some c10Snap) = ([], false) :=
  loadSnapshot_mismatch_ignored c10Template c10Snap (by decide)

/-! ### Claim C8 -/

def c8Template : Template :=
  ⟨"t1", [("/a.js", "1")], [], [], "npm run dev", "/a.js"⟩

/-- An engine state in which `currentTemplate` is set but the managers are
missing: `initialize` sets `currentTemplate` *before* attempting to boot,
so a boot failure leaves exactly this shape. -/
def c8BrokenState : EngineState := ⟨some c8Template, false, [], .error, none⟩

def c8Env : Env := ⟨false, none, none, false, 0, false, false, [], []⟩

/-- C8, counterexample: in the reachable state where `currentTemplate`
already has the id `t1` but a previous `initialize` failed before creating
the managers, `switchTemplate(t1)` is *not* a no-op: the guard on the
managers sends it into a full `initialize`, which mounts the filesystem
and changes the engine status and state. -/
theorem switchTemplate_same_id_not_noop :
    c8BrokenState.currentTemplate = some c8Template ∧
      Event.fsMount ∈ (switchTemplate c8BrokenState c8Template c8Env).trace ∧
      (switchTemplate c8BrokenState c8Template c8Env).state ≠ c8BrokenState ∧
      (switchTemplate c8BrokenState c8Template c8Env).state.status ≠
        c8BrokenState.status := by
  decide

/-- C8 (amended): when the engine's current template has id `t.id` **and
its template/filesystem managers exist** (the state every successful
activation leaves behind), `switchTemplate(t)` returns immediately: empty
trace — no filesystem mutation, no process kill, no dev-server start —
and a completely unchanged engine state. -/
theorem switchTemplate_same_id_noop (st : EngineState) (nt : Template)
    (env : Env) (ct : Template) (hct : st.currentTemplate = some ct)
    (hmg : st.hasManagers = true) (hid : ct.id = nt.id) :
    switchTemplate st nt env = ⟨[], st, false⟩ := by
  simp [switchTemplate, hct, hmg, hid]

def c8ReadyState : EngineState :=
  ⟨some c8Template, true, [("/a.js", "1")], .ready, none⟩

/-- C8, witness: the no-op evaluated with the managers present. -/
theorem switchTemplate_same_id_noop_witness :
    switchTemplate c8ReadyState c8Template c8Env = ⟨[], c8ReadyState, false⟩ :=
  switchTemplate_same_id_noop c8ReadyState c8Template c8Env c8Template rfl rfl
    rfl

/-! ### Claim C5 -/

theorem installDependencies_throws (st2 : EngineState) (env : Env)
    (t : Template) (hct : st2.currentTemplate = some t)
    (h1 : t.dependencies ≠ [])
    (h2 : st2.installedDependenciesHash ≠ some t.dependencies)
    (h3 : ¬(env.nodeModulesExists = true ∧
        (mergedManifest t env.manifest).dependencies = t.dependencies ∧
        (mergedManifest t env.manifest).devDependencies = t.devDependencies))
    (h4 : env.installerExitCode ≠ 0) :
    installDependencies st2 env =
      ⟨[Event.fsReadManifest,
        Event.fsWriteManifest (mergedManifest t env.manifest).dependencies
          (mergedManifest t env.manifest).devDependencies,
        Event.spawnInstaller, Event.emitError], st2, true⟩ := by
  simp only [installDependencies, hct]
  rw [if_neg h1, if_neg h2, if_pos (Or.inr h1), if_neg h3, if_neg h4]
  rfl

/-- Concrete templates with different dependency records, plus an
environment in which `npm install` exits with code 1. -/
def c5Old : Template :=
  ⟨"t1", [("/a.js", "1")], [("react", "^18.0.0")], [], "npm run dev", "/a.js"⟩

def c5New : Template :=
  ⟨"t2", [("/b.js", "2")], [("vue", "^3.4.0")], [], "npm run dev", "/b.js"⟩

def c5State : EngineState := ⟨some c5Old, true, [("/a.js", "1")], .ready, none⟩

def c5Env : Env := ⟨false, none, none, false, 1, false, false, [], []⟩

/-- C5, counterexample: when the dependency install fails mid-switch, the
claim requires a fallback `initialize(newTemplate)` on the caller's
behalf; the code's `catch` block instead sets status `error`, emits the
error and rethrows — the trace of the failing switch contains no
delegation to `initialize` at all. -/
theorem switchTemplate_failure_no_fallback :
    (switchTemplate c5State c5New c5Env).threw = true ∧
      (switchTemplate c5State c5New c5Env).state.status =
        PlaygroundStatus.error ∧
      Event.delegateInitCall "t2" ∉ (switchTemplate c5State c5New c5Env).trace := by
  decide

/-- C5 (amended): if the dependency install fails mid-switch (past the
short-circuit checks and a successful snapshot save), `switchTemplate`
does **not** fall back to `initialize`: it sets status `error`, emits an
error event and rethrows to the caller, leaving the already-applied diff
in place.  (Per-file failures inside diff application are caught and
skipped in `applyDiff` itself and cannot abort the switch.) -/
theorem switchTemplate_install_failure_rethrows (st : EngineState)
    (nt : Template) (env : Env) (ct : Template)
    (hct : st.currentTemplate = some ct) (hmg : st.hasManagers = true)
    (hne : ct.id ≠ nt.id) (hsave : env.saveFails = false)
    (hdeps : ¬(ct.dependencies = nt.dependencies ∧
        ct.devDependencies = nt.devDependencies))
    (h1 : ct.dependencies ≠ [])
    (h2 : st.installedDependenciesHash ≠ some ct.dependencies)
    (h3 : ¬(env.nodeModulesExists = true ∧
        (mergedManifest ct env.manifest).dependencies = ct.dependencies ∧
        (mergedManifest ct env.manifest).devDependencies = ct.devDependencies))
    (h4 : env.installerExitCode ≠ 0) :
    (switchTemplate st nt env).threw = true ∧
      (switchTemplate st nt env).state.status = PlaygroundStatus.error ∧
      ∀ tid, Event.delegateInitCall tid ∉ (switchTemplate st nt env).trace := by
  have hsave' : ¬(env.saveFails = true) := by
    rw [hsave]
    exact Bool.false_ne_true
  have hinst := installDependencies_throws
    { currentTemplate := some ct, hasManagers := true,
      currentFiles := applyDiffFiles st.currentFiles
        (computeDiff st.currentFiles nt.files) nt.files,
      status := PlaygroundStatus.installing,
      installedDependenciesHash := st.installedDependenciesHash } env ct rfl h1
    h2 h3 h4
  refine ⟨?_, ?_, ?_⟩
  · simp [switchTemplate, hct, hmg, hne, engineSaveSnapshot, hsave',
      switchTemplateBody, hdeps, hinst]
  · simp [switchTemplate, hct, hmg, hne, engineSaveSnapshot, hsave',
      switchTemplateBody, hdeps, hinst]
  · intro tid
    simp [switchTemplate, hct, hmg, hne, engineSaveSnapshot, hsave',
      switchTemplateBody, hdeps, hinst, initCall_not_mem_applyDiffTrace]

/-- C5, witness: the amended failure behavior evaluated on the concrete
failing switch of the counterexample (checking the absence of a
delegation to `initialize` for the old template's id). -/
theorem switchTemplate_install_failure_rethrows_witness :
    (switchTemplate c5State c5New c5Env).threw = true ∧
      (switchTemplate c5State c5New c5Env).state.status =
        PlaygroundStatus.error ∧
      Event.delegateInitCall "t1" ∉ (switchTemplate c5State c5New c5Env).trace := by
  have h := switchTemplate_install_failure_rethrows c5State c5New c5Env c5Old
    rfl rfl (by decide) rfl (by decide) (by decide) (by decide) (by decide)
    (by decide)
  exact ⟨h.1, h.2.1, h.2.2 "t1"⟩

end Playground
